import Mathlib

/-!
Verification of the NetBox network scanner (scanner.py) against its
specification.  The scanner's reconciliation logic, host prober, range
expansion and rolling-window scheduling are embedded as pure Lean
functions; external tools (fping, ip neigh, DNS) and the NetBox client
are modelled by explicit environments describing the outcome of each
call, with Python exceptions rendered as `Except` values that the
embedded code handles exactly where the Python code catches them.
-/

/-- Reachability status string computed at scanner.py line 132:
"Online" when the ping succeeded, "Offline" otherwise. -/
def statusOf (pinged : Bool) : String := if pinged then "Online" else "Offline"

/-- Custom-field dictionary of a NetBox IP record as read by scan_ip.
Each field is `none` when the key is absent from the dict. -/
structure CustomFields where
  reachability : Option String
  last_scan : Option String
  last_online : Option String
  mac_address : Option String
deriving DecidableEq

/-- The empty custom-field dict, used for `obj.custom_fields or {}` (line 143). -/
def emptyCF : CustomFields :=
  { reachability := none, last_scan := none, last_online := none, mac_address := none }

/-- A NetBox IP-address record as scan_ip reads it: `custom_fields` may be
None in the API (hence the outer Option), and `dns_name` is read with
`getattr(obj, "dns_name", None)` (line 155). -/
structure IPRecord where
  custom_fields : Option CustomFields
  dns_name : Option String
deriving DecidableEq

/-- Python truthiness of an optional string: None and the empty string
are falsy, every other string is truthy. -/
def optTruthy : Option String → Bool
  | none => false
  | some s => !(s == "")

/-- The `custom_fields` sub-dict of the update payload built at
scanner.py lines 142-153; `none` means the key was not added. -/
structure UpdateCF where
  reachability : Option String
  last_scan : Option String
  last_online : Option String
  mac_address : Option String
deriving DecidableEq

/-- The update payload of scanner.py lines 142-156: a `custom_fields`
dict plus an optional top-level `dns_name` key. -/
structure UpdatePayload where
  custom_fields : UpdateCF
  dns_name : Option String
deriving DecidableEq

/-- Mirrors scanner.py lines 142-156: build the update dict for an
existing record.  `reachability` is added only when the stored value
differs from the new status; `last_scan` is always added; `last_online`
is added when the host pinged; `mac_address` / `dns_name` are added only
for a truthy lookup result that differs from the stored value. -/
def buildUpdates (obj : IPRecord) (pinged : Bool) (mac dns : Option String)
    (now : String) : UpdatePayload :=
  let cf := obj.custom_fields.getD emptyCF
  let status := statusOf pinged
  { custom_fields :=
      { reachability := if cf.reachability ≠ some status then some status else none
        last_scan := some now
        last_online := if pinged then some now else none
        mac_address := if optTruthy mac && decide (cf.mac_address ≠ mac) then mac else none }
    dns_name := if optTruthy dns && decide (obj.dns_name ≠ dns) then dns else none }

/-- Mirrors scanner.py line 158:
`changed = bool(updates["custom_fields"]) or ("dns_name" in updates)`.
The custom-field dict is nonempty exactly when one of its keys was added. -/
def changedFlag (u : UpdatePayload) : Bool :=
  u.custom_fields.reachability.isSome || u.custom_fields.last_scan.isSome ||
    u.custom_fields.last_online.isSome || u.custom_fields.mac_address.isSome ||
    u.dns_name.isSome

/-- The creation payload of scanner.py lines 165-175.  `dns_name = none`
models the key being left out of the payload entirely (line 174 adds it
only when the DNS lookup was truthy). -/
structure CreatePayload where
  address : String
  reachability : String
  last_scan : String
  last_online : String
  mac_address : String
  dns_name : Option String
deriving DecidableEq

/-- Mirrors scanner.py lines 165-175: the payload for a new record.
`mac_address` is `mac or ""` (falsy lookup becomes the empty string and
the key is always present); `dns_name` is added only when truthy. -/
def buildCreate (ip_str : String) (mac dns : Option String) (now : String) : CreatePayload :=
  { address := ip_str ++ "/32"
    reachability := "Online"
    last_scan := now
    last_online := now
    mac_address := if optTruthy mac then mac.getD "" else ""
    dns_name := if optTruthy dns then dns else none }

/-- Errors raised by the pynetbox client, carried as their message. -/
abbrev ClientError := String

/-- Outcome of each pynetbox call scan_ip may make, fixed up front so the
embedded code can be run against any behaviour of the external store. -/
structure NetboxEnv where
  getResult : Except ClientError (Option IPRecord)
  filterResult : Except ClientError (List IPRecord)
  updateResult : Except ClientError Unit
  createResult : Except ClientError Unit

/-- One call issued to the NetBox client, in issue order, with its
argument.  `update` and `create` are the write calls. -/
inductive Call
  | get (query : String)
  | filter (query : String)
  | update (payload : UpdatePayload)
  | create (payload : CreatePayload)
deriving DecidableEq

/-- Whether a client call is a write (mutation) call. -/
def Call.isWrite : Call → Bool
  | .update _ => true
  | .create _ => true
  | _ => false

/-- The reconciliation outcome in the specification's vocabulary:
`created` / `updated` when the corresponding write succeeded, and
`unchanged` otherwise (including every caught client error). -/
inductive Outcome
  | created
  | updated
  | unchanged
deriving DecidableEq

/-- The single-host lookup key of scanner.py lines 135 and 166: the bare
address with "/32" appended, for every address. -/
def singleHostKey (ip_str : String) : String := ip_str ++ "/32"

/-- Mirrors scanner.py lines 141-178: the branch taken after the record
lookup has produced `objOpt`.  Returns the outcome together with the
client calls this branch issues; a write call whose result is an error
is still recorded as issued, and the exception it raises is caught by
the handler at line 180, giving outcome `unchanged`. -/
def reconcileObj (env : NetboxEnv) (objOpt : Option IPRecord) (ip_str : String)
    (pinged : Bool) (mac dns : Option String) (now : String) : Outcome × List Call :=
  match objOpt with
  | some obj =>
      let u := buildUpdates obj pinged mac dns now
      if changedFlag u then
        match env.updateResult with
        | .ok _ => (.updated, [Call.update u])
        | .error _ => (.unchanged, [Call.update u])
      else (.unchanged, [])
  | none =>
      if pinged then
        let p := buildCreate ip_str mac dns now
        match env.createResult with
        | .ok _ => (.created, [Call.create p])
        | .error _ => (.unchanged, [Call.create p])
      else (.unchanged, [])

/-- Mirrors scanner.py lines 134-181 (the try block of scan_ip after the
probe): exact-key get, fallback filter with `_first_or_none` (line 118,
the first element of the result set or none), then update or create.
Returns the outcome and the trace of client calls issued; any client
exception is caught at line 180 and yields `unchanged`. -/
def scan_ip_reconcile (env : NetboxEnv) (ip_str : String) (pinged : Bool)
    (mac dns : Option String) (now : String) : Outcome × List Call :=
  match env.getResult with
  | .error _ => (.unchanged, [Call.get (singleHostKey ip_str)])
  | .ok (some obj) =>
      let r := reconcileObj env (some obj) ip_str pinged mac dns now
      (r.1, Call.get (singleHostKey ip_str) :: r.2)
  | .ok none =>
      match env.filterResult with
      | .error _ => (.unchanged, [Call.get (singleHostKey ip_str), Call.filter ip_str])
      | .ok l =>
          let r := reconcileObj env l.head? ip_str pinged mac dns now
          (r.1, Call.get (singleHostKey ip_str) :: Call.filter ip_str :: r.2)

/-- Outcome of a `subprocess.run` invocation in is_pingable: the return
code on success, or the exception class the call raised. -/
inductive ExecResult
  | ok (returncode : Int)
  | fileNotFound
  | err
deriving DecidableEq

/-- Outcome of a `subprocess.check_output` invocation in get_mac: the
captured output on success, or the exception class the call raised. -/
inductive OutResult
  | ok (out : String)
  | fileNotFound
  | calledProcessError
  | err
deriving DecidableEq

/-- Behaviour of the external probing tools for one address: the fping
binaries at both install locations, the `ip neigh` binaries at both
install locations, and the reverse-DNS resolver. -/
structure ToolEnv where
  fpingUsrSbin : ExecResult
  fpingUsrBin : ExecResult
  ipNeighUsrSbin : OutResult
  ipNeighSbin : OutResult
  gethostbyaddr : Except Unit String

/-- Mirrors scanner.py lines 58-80: try /usr/sbin/fping; on
FileNotFoundError fall back to /usr/bin/fping, where any exception at
all (line 75) yields False; any other exception of the first call
(line 78) also yields False.  Reachable means return code 0. -/
def is_pingable (env : ToolEnv) : Bool :=
  match env.fpingUsrSbin with
  | .ok rc => rc == 0
  | .fileNotFound =>
      match env.fpingUsrBin with
      | .ok rc => rc == 0
      | _ => false
  | .err => false

/-- Python `str.split()` with no argument: split on whitespace and drop
the empty pieces. -/
def pySplitWhite (s : String) : List String :=
  (s.split Char.isWhitespace).filter (fun t => !(t == ""))

/-- Mirrors the parsing loop of get_mac (scanner.py lines 87-89): the
first output line containing "lladdr", split on "lladdr", piece 1, then
the first whitespace token of that piece.  `Except.error` models the
IndexError raised by `[0]` when no token follows "lladdr". -/
def extract_lladdr (out : String) : Except Unit (Option String) :=
  match (out.splitOn "\n").find? (fun l => (l.splitOn "lladdr").length ≥ 2) with
  | none => .ok none
  | some line =>
      match (line.splitOn "lladdr").get? 1 with
      | none => .error ()
      | some rest =>
          match (pySplitWhite rest).head? with
          | none => .error ()
          | some tok => .ok (some tok)

/-- Mirrors scanner.py lines 83-102: try `/usr/sbin/ip neigh show`; on
FileNotFoundError fall back to `/sbin/ip`, whose inner handler (line 96)
turns any exception into None; a CalledProcessError of the first call
(line 98) gives None; any other exception (line 100) is logged and the
function falls through to `return None`. -/
def get_mac (env : ToolEnv) : Option String :=
  match env.ipNeighUsrSbin with
  | .ok out =>
      match extract_lladdr out with
      | .ok r => r
      | .error _ => none
  | .fileNotFound =>
      match env.ipNeighSbin with
      | .ok out =>
          match extract_lladdr out with
          | .ok r => r
          | .error _ => none
      | _ => none
  | .calledProcessError => none
  | .err => none

/-- Mirrors scanner.py lines 105-110: reverse DNS with every exception
silenced to None. -/
def get_dns (env : ToolEnv) : Option String :=
  match env.gethostbyaddr with
  | .ok h => some h
  | .error _ => none

/-- The per-host facts of the specification's Host Prober. -/
structure ProbeResult where
  reachable : Bool
  macAddress : Option String
  dnsName : Option String
deriving DecidableEq

/-- Mirrors scanner.py lines 128-132 (the probe phase of scan_ip):
reachability first; the DNS and MAC lookups run only when the host
pinged, otherwise both results are None. -/
def probe (env : ToolEnv) : ProbeResult :=
  let pinged := is_pingable env
  { reachable := pinged
    dnsName := if pinged then get_dns env else none
    macAddress := if pinged then get_mac env else none }

/-- The whole of scan_ip: probe the host with the given tool behaviour,
then reconcile the result into NetBox under the given client behaviour. -/
def scan_ip (tools : ToolEnv) (env : NetboxEnv) (ip_str now : String) :
    Outcome × List Call :=
  let pr := probe tools
  scan_ip_reconcile env ip_str pr.reachable pr.macAddress pr.dnsName now

/-- Python `str.split(sep)` for a one-character separator, over the
character list of the string: the pieces between occurrences of the
separator, keeping empty pieces. -/
def splitOnChar (c : Char) : List Char → List (List Char)
  | [] => [[]]
  | x :: xs =>
      if x = c then [] :: splitOnChar c xs
      else
        match splitOnChar c xs with
        | h :: t => (x :: h) :: t
        | [] => [[x]]

/-- The decimal value of a nonempty all-digit character list, or none. -/
def chunkToNat? (l : List Char) : Option Nat :=
  if l.isEmpty || !l.all Char.isDigit then none
  else some (l.foldl (fun acc ch => acc * 10 + (ch.toNat - 48)) 0)

/-- Python ipaddress octet parsing for IPv4 dotted-quad text: one to
three decimal digits, no leading zero unless the octet is exactly "0",
value at most 255. -/
def parseOctet (l : List Char) : Option Nat :=
  match chunkToNat? l with
  | some n =>
      if l.length ≤ 3 && (l.length == 1 || decide (l.head? ≠ some '0')) && n ≤ 255 then
        some n
      else none
  | none => none

/-- Parse an IPv4 dotted quad to its 32-bit value. -/
def parseIPv4 (l : List Char) : Option Nat :=
  match (splitOnChar '.' l).mapM parseOctet with
  | some [a, b, c, d] => some (((a * 256 + b) * 256 + c) * 256 + d)
  | _ => none

/-- Parse the numeric mask-length part of an IPv4 CIDR string: decimal
digits with value at most 32. -/
def parsePrefixLen (l : List Char) : Option Nat :=
  match chunkToNat? l with
  | some n => if n ≤ 32 then some n else none
  | none => none

/-- Models `ipaddress.ip_network` on IPv4 textual input (the numeric
mask-length form; a bare address means a full /32 mask).  Malformed text
is a ValueError.  With `strict` set, host bits under the mask are a
ValueError as well; scanner.py line 189 passes strict=False, which masks
the host bits off instead.  Returns the network base value and the mask
length. -/
def ip_network_v4 (s : String) (strict : Bool) : Except String (Nat × Nat) :=
  match splitOnChar '/' s.data with
  | [addr] =>
      match parseIPv4 addr with
      | some a => .ok (a, 32)
      | none => .error "malformed address"
  | [addr, plen] =>
      match parseIPv4 addr, parsePrefixLen plen with
      | some a, some p =>
          let size := 2 ^ (32 - p)
          if strict && a % size != 0 then .error "has host bits set"
          else .ok (a - a % size, p)
      | _, _ => .error "malformed address"
  | _ => .error "malformed address"

/-- CPython `IPv4Network.hosts()`: the single network address for a full
/32 mask, both addresses for a /31, and otherwise every address strictly
between the network and the broadcast address, ascending. -/
def hostsV4 (base plen : Nat) : List Nat :=
  if plen = 32 then [base]
  else if plen = 31 then [base, base + 1]
  else List.range' (base + 1) (2 ^ (32 - plen) - 2)

/-- CPython `IPv6Network.hosts()`: the single address for a /128, both
for a /127, and otherwise every address above the network (Subnet-Router
anycast) address up to and including the last, ascending. -/
def hostsV6 (base plen : Nat) : List Nat :=
  if plen = 128 then [base]
  else if plen = 127 then [base, base + 1]
  else List.range' (base + 1) (2 ^ (128 - plen) - 1)

/-- Render a 32-bit value as an IPv4 dotted quad, as `str(ip)` does for
the addresses yielded by `net.hosts()`. -/
def ipv4ToString (n : Nat) : String :=
  toString (n / 16777216 % 256) ++ "." ++ toString (n / 65536 % 256) ++ "." ++
    toString (n / 256 % 256) ++ "." ++ toString (n % 256)

/-- Mirrors scanner.py lines 188-203: validate the prefix with
`ip_network(prefix_str, strict=False)`; on ValueError log and return
with nothing probed (`none`); otherwise the probe targets submitted to
the pool are the rendered hosts of the network, in order (`some`). -/
def scan_prefix (s : String) : Option (List String) :=
  match ip_network_v4 s false with
  | .error _ => none
  | .ok (base, plen) => some ((hostsV4 base plen).map ipv4ToString)

/-- Size of the `futures` map of scan_prefix after each submission of the
initial batch (line 197): 1, 2, ..., k. -/
def submitPhase (k : Nat) : List Nat := (List.range k).map (fun i => i + 1)

/-- Sizes of the `futures` map in the refill loop (lines 198-201), two
samples per remaining target: k - 1 right after a completed future is
popped, and k again right after its replacement is submitted. -/
def refillPhase (k : Nat) : Nat → List Nat
  | 0 => []
  | r + 1 => (k - 1) :: k :: refillPhase k r

/-- Sizes of the `futures` map in the final drain loop (lines 202-203),
one sample per completion: k - 1 down to 0. -/
def drainPhase (k : Nat) : List Nat := (List.range k).reverse

/-- The in-flight probe count of scan_prefix over a scan of n targets
with max_workers k, sampled after every submit and completion event of
the orchestrating loop: the initial batch submits min k n tasks (the
`zip(range(max_workers), it)` of line 197), each remaining target is
dispatched only after one in-flight future completes, and the tail
drains to zero. -/
def window_trace (k n : Nat) : List Nat :=
  let m := min k n
  submitPhase m ++ refillPhase m (n - m) ++ drainPhase m

/-- Stored custom fields for the C1 scenario: status, MAC and DNS all
already match the fresh probe. -/
def c1cf : CustomFields :=
  { reachability := some "Online", last_scan := some "2024-01-01 00:00:00",
    last_online := some "2024-01-01 00:00:00", mac_address := some "aa:bb:cc:dd:ee:ff" }

/-- Existing inventory record for the C1 scenario. -/
def c1obj : IPRecord := { custom_fields := some c1cf, dns_name := some "host.example.com" }

/-- Client behaviour for the C1 scenario: the exact-key get finds the
record and the update call succeeds. -/
def c1env : NetboxEnv :=
  { getResult := Except.ok (some c1obj), filterResult := Except.ok [],
    updateResult := Except.ok (), createResult := Except.ok () }

/-- C1 counterexample: an existing record whose stored status equals the
new status and whose stored MAC and DNS match the non-empty lookups, yet
reconciliation issues one update call (not zero) and the outcome is
`updated` (not `unchanged`): line 148 puts `last_scan` into the delta
unconditionally, so line 158's changed test is always true and the write
fires purely to refresh the scan timestamp. -/
theorem scan_C1_counterexample :
    (c1obj.custom_fields.getD emptyCF).reachability = some (statusOf true) ∧
    (c1obj.custom_fields.getD emptyCF).mac_address = some "aa:bb:cc:dd:ee:ff" ∧
    c1obj.dns_name = some "host.example.com" ∧
    ((scan_ip_reconcile c1env "10.0.0.5" true (some "aa:bb:cc:dd:ee:ff")
        (some "host.example.com") "2024-01-02 03:04:05").2.filter Call.isWrite).length = 1 ∧
    (scan_ip_reconcile c1env "10.0.0.5" true (some "aa:bb:cc:dd:ee:ff")
        (some "host.example.com") "2024-01-02 03:04:05").1 = Outcome.updated := by
  decide

/-- C1 (amended): for an existing record whose stored status equals the
newly computed status and whose stored MAC / DNS already match the
non-empty lookups, reconciliation issues exactly one update call; its
payload touches nothing but the timestamps (`last_scan` always, and
`last_online` exactly when the host is reachable) and the outcome is
`updated` — the code does write purely to refresh the scan timestamp. -/
theorem scan_C1_amended (env : NetboxEnv) (obj : IPRecord) (ip_str now m d : String)
    (pinged : Bool)
    (hget : env.getResult = Except.ok (some obj))
    (hupd : env.updateResult = Except.ok ())
    (hst : (obj.custom_fields.getD emptyCF).reachability = some (statusOf pinged))
    (hm : m ≠ "")
    (hmac : (obj.custom_fields.getD emptyCF).mac_address = some m)
    (hd : d ≠ "")
    (hdns : obj.dns_name = some d) :
    scan_ip_reconcile env ip_str pinged (some m) (some d) now =
      (Outcome.updated,
        [Call.get (singleHostKey ip_str),
         Call.update ⟨⟨none, some now, if pinged then some now else none, none⟩, none⟩]) := by
  simp only [scan_ip_reconcile, hget]
  simp [reconcileObj, buildUpdates, changedFlag, hst, hmac, hdns, hupd, optTruthy, hm, hd]

/-- Closed instance of scan_C1_amended at the C1 scenario record. -/
theorem scan_C1_witness :
    scan_ip_reconcile c1env "10.0.0.5" true (some "aa:bb:cc:dd:ee:ff")
        (some "host.example.com") "2024-01-02 03:04:05" =
      (Outcome.updated,
        [Call.get (singleHostKey "10.0.0.5"),
         Call.update ⟨⟨none, some "2024-01-02 03:04:05",
           if true then some "2024-01-02 03:04:05" else none, none⟩, none⟩]) :=
  scan_C1_amended c1env c1obj "10.0.0.5" "2024-01-02 03:04:05" "aa:bb:cc:dd:ee:ff"
    "host.example.com" true rfl rfl (by decide) (by decide) (by decide) (by decide) (by decide)

/-- C2: with no existing inventory record (the exact-key get finds none
and the bare-address filter returns an empty set) and an unreachable
probe, reconciliation issues no write call at all and the outcome is
`unchanged`. -/
theorem scan_C2 (env : NetboxEnv) (ip_str now : String) (mac dns : Option String)
    (hget : env.getResult = Except.ok none)
    (hfil : env.filterResult = Except.ok []) :
    scan_ip_reconcile env ip_str false mac dns now =
      (Outcome.unchanged, [Call.get (singleHostKey ip_str), Call.filter ip_str]) ∧
    ((scan_ip_reconcile env ip_str false mac dns now).2.filter Call.isWrite) = [] := by
  simp [scan_ip_reconcile, hget, hfil, reconcileObj, Call.isWrite]

/-- Closed instance of scan_C2. -/
theorem scan_C2_witness :
    scan_ip_reconcile ⟨Except.ok none, Except.ok [], Except.ok (), Except.ok ()⟩
        "10.0.0.9" false none none "2024-01-02 03:04:05" =
      (Outcome.unchanged, [Call.get (singleHostKey "10.0.0.9"), Call.filter "10.0.0.9"]) ∧
    ((scan_ip_reconcile ⟨Except.ok none, Except.ok [], Except.ok (), Except.ok ()⟩
        "10.0.0.9" false none none "2024-01-02 03:04:05").2.filter Call.isWrite) = [] :=
  scan_C2 ⟨Except.ok none, Except.ok [], Except.ok (), Except.ok ()⟩
    "10.0.0.9" "2024-01-02 03:04:05" none none rfl rfl

/-- C3: with no existing inventory record and a reachable probe,
reconciliation issues exactly one write call, a create, whose payload
has reachability "Online" and both timestamps set to the probe time. -/
theorem scan_C3 (env : NetboxEnv) (ip_str now : String) (mac dns : Option String)
    (hget : env.getResult = Except.ok none)
    (hfil : env.filterResult = Except.ok []) :
    ((scan_ip_reconcile env ip_str true mac dns now).2.filter Call.isWrite)
        = [Call.create (buildCreate ip_str mac dns now)] ∧
    (buildCreate ip_str mac dns now).reachability = "Online" ∧
    (buildCreate ip_str mac dns now).last_scan = now ∧
    (buildCreate ip_str mac dns now).last_online = now := by
  cases hc : env.createResult <;>
    simp [scan_ip_reconcile, hget, hfil, reconcileObj, hc, Call.isWrite, buildCreate]

/-- Closed instance of scan_C3. -/
theorem scan_C3_witness :
    ((scan_ip_reconcile ⟨Except.ok none, Except.ok [], Except.ok (), Except.ok ()⟩
        "10.0.0.9" true none none "2024-01-02 03:04:05").2.filter Call.isWrite)
        = [Call.create (buildCreate "10.0.0.9" none none "2024-01-02 03:04:05")] ∧
    (buildCreate "10.0.0.9" none none "2024-01-02 03:04:05").reachability = "Online" ∧
    (buildCreate "10.0.0.9" none none "2024-01-02 03:04:05").last_scan
        = "2024-01-02 03:04:05" ∧
    (buildCreate "10.0.0.9" none none "2024-01-02 03:04:05").last_online
        = "2024-01-02 03:04:05" :=
  scan_C3 ⟨Except.ok none, Except.ok [], Except.ok (), Except.ok ()⟩
    "10.0.0.9" "2024-01-02 03:04:05" none none rfl rfl

/-- C10: when a record is created for a reachable address, a MAC lookup
that returned None is written as the empty string in the always-present
mac_address field, while a None DNS lookup leaves the dns_name key out
of the payload entirely. -/
theorem scan_C10 (env : NetboxEnv) (ip_str now : String) (dns : Option String)
    (hget : env.getResult = Except.ok none)
    (hfil : env.filterResult = Except.ok []) :
    ((scan_ip_reconcile env ip_str true none dns now).2.filter Call.isWrite)
        = [Call.create (buildCreate ip_str none dns now)] ∧
    (buildCreate ip_str none dns now).mac_address = "" ∧
    (buildCreate ip_str none none now).dns_name = none := by
  cases hc : env.createResult <;>
    simp [scan_ip_reconcile, hget, hfil, reconcileObj, hc, Call.isWrite, buildCreate, optTruthy]

/-- Closed instance of scan_C10. -/
theorem scan_C10_witness :
    ((scan_ip_reconcile ⟨Except.ok none, Except.ok [], Except.ok (), Except.ok ()⟩
        "10.0.0.9" true none (some "h.example.com") "2024-01-02 03:04:05").2.filter
        Call.isWrite)
        = [Call.create (buildCreate "10.0.0.9" none (some "h.example.com")
            "2024-01-02 03:04:05")] ∧
    (buildCreate "10.0.0.9" none (some "h.example.com") "2024-01-02 03:04:05").mac_address
        = "" ∧
    (buildCreate "10.0.0.9" none none "2024-01-02 03:04:05").dns_name = none :=
  scan_C10 ⟨Except.ok none, Except.ok [], Except.ok (), Except.ok ()⟩
    "10.0.0.9" "2024-01-02 03:04:05" (some "h.example.com") rfl rfl

/-- C7: the host probe is total over every tool behaviour and degrades
failures instead of propagating them: when the reachability check
reports unreachable, the MAC and DNS lookups are skipped and the result
is all-negative; a reachable verdict can only come from an fping
invocation that actually ran and returned 0, so every tool failure
(missing binary at both paths, execution error) yields reachable =
false; a resolver failure yields a None DNS name and a neighbour-table
failure a None MAC. -/
theorem scan_C7 (env : ToolEnv) :
    (is_pingable env = false →
      probe env = { reachable := false, macAddress := none, dnsName := none }) ∧
    (is_pingable env = true →
      env.fpingUsrSbin = ExecResult.ok 0 ∨
        (env.fpingUsrSbin = ExecResult.fileNotFound ∧ env.fpingUsrBin = ExecResult.ok 0)) ∧
    (env.fpingUsrSbin = ExecResult.err → probe env = ⟨false, none, none⟩) ∧
    (env.fpingUsrSbin = ExecResult.fileNotFound → env.fpingUsrBin = ExecResult.err →
      probe env = ⟨false, none, none⟩) ∧
    (env.gethostbyaddr = Except.error () → (probe env).dnsName = none) ∧
    (env.ipNeighUsrSbin = OutResult.err → (probe env).macAddress = none) := by
  obtain ⟨p1, p2, m1, m2, d⟩ := env
  refine ⟨?_, ?_, ?_, ?_, ?_, ?_⟩ <;> intro h
  · simp [probe, h]
  · cases p1 with
    | ok rc =>
        left
        simp only [is_pingable] at h
        simp [show rc = 0 by exact_mod_cast of_decide_eq_true h]
    | fileNotFound =>
        right
        cases p2 with
        | ok rc =>
            simp only [is_pingable] at h
            simp [show rc = 0 by exact_mod_cast of_decide_eq_true h]
        | fileNotFound => simp [is_pingable] at h
        | err => simp [is_pingable] at h
    | err => simp [is_pingable] at h
  · simp_all [probe, is_pingable]
  · intro h2
    simp_all [probe, is_pingable]
  · cases hp : is_pingable ⟨p1, p2, m1, m2, d⟩ <;> simp_all [probe, get_dns]
  · cases hp : is_pingable ⟨p1, p2, m1, m2, d⟩ <;> simp_all [probe, get_mac]

/-- A client call whose invocation raises, under the given client
behaviour. -/
def callFailed (env : NetboxEnv) : Call → Prop
  | .get _ => ∃ e, env.getResult = Except.error e
  | .filter _ => ∃ e, env.filterResult = Except.error e
  | .update _ => ∃ e, env.updateResult = Except.error e
  | .create _ => ∃ e, env.createResult = Except.error e

/-- Helper for C8: if the post-lookup branch issued a call that raised,
its outcome is `unchanged`. -/
theorem reconcileObj_unchanged_of_failed (env : NetboxEnv) (objOpt : Option IPRecord)
    (ip_str : String) (pinged : Bool) (mac dns : Option String) (now : String)
    (h : ∃ c ∈ (reconcileObj env objOpt ip_str pinged mac dns now).2, callFailed env c) :
    (reconcileObj env objOpt ip_str pinged mac dns now).1 = Outcome.unchanged := by
  rcases h with ⟨c, hc, hf⟩
  rcases objOpt with _ | obj
  · rcases hp : pinged with _ | _
    · simp [reconcileObj, hp] at hc
    · rcases hcr : env.createResult with e | u
      · simp [reconcileObj, hp, hcr]
      · simp only [reconcileObj, hp, hcr, if_true, List.mem_singleton] at hc
        subst hc
        rcases hf with ⟨e, he⟩
        rw [hcr] at he
        cases he
  · by_cases hch : changedFlag (buildUpdates obj pinged mac dns now)
    · rcases hur : env.updateResult with e | u
      · simp [reconcileObj, hch, hur]
      · simp only [reconcileObj, hch, hur, if_true, List.mem_singleton] at hc
        subst hc
        rcases hf with ⟨e, he⟩
        rw [hur] at he
        cases he
    · simp [reconcileObj, hch] at hc

/-- C8: any error raised by the inventory client during a call that
reconciliation actually issued (get, filter, create or update) is caught
inside scan_ip and the outcome is `unchanged`; no inventory error ever
propagates to the caller (the embedding is a total function into
Outcome, mirroring the except handler at line 180). -/
theorem scan_C8 (env : NetboxEnv) (ip_str now : String) (pinged : Bool)
    (mac dns : Option String)
    (h : ∃ c ∈ (scan_ip_reconcile env ip_str pinged mac dns now).2, callFailed env c) :
    (scan_ip_reconcile env ip_str pinged mac dns now).1 = Outcome.unchanged := by
  rcases h with ⟨c, hc, hf⟩
  rcases hg : env.getResult with e | o
  · simp [scan_ip_reconcile, hg]
  · rcases o with _ | obj
    · rcases hfl : env.filterResult with e | l
      · simp [scan_ip_reconcile, hg, hfl]
      · simp only [scan_ip_reconcile, hg, hfl, List.mem_cons] at hc ⊢
        rcases hc with hc | hc | hc
        · subst hc
          rcases hf with ⟨e, he⟩
          rw [hg] at he
          cases he
        · subst hc
          rcases hf with ⟨e, he⟩
          rw [hfl] at he
          cases he
        · exact reconcileObj_unchanged_of_failed env l.head? ip_str pinged mac dns now
            ⟨c, hc, hf⟩
    · simp only [scan_ip_reconcile, hg, List.mem_cons] at hc ⊢
      rcases hc with hc | hc
      · subst hc
        rcases hf with ⟨e, he⟩
        rw [hg] at he
        cases he
      · exact reconcileObj_unchanged_of_failed env (some obj) ip_str pinged mac dns now
          ⟨c, hc, hf⟩

/-- Closed instance of scan_C8: a get that raises is caught and the
outcome is `unchanged`. -/
theorem scan_C8_witness :
    (scan_ip_reconcile ⟨Except.error "connection refused", Except.ok [], Except.ok (),
        Except.ok ()⟩ "10.0.0.7" true none none "2024-01-02 03:04:05").1
      = Outcome.unchanged :=
  scan_C8 ⟨Except.error "connection refused", Except.ok [], Except.ok (), Except.ok ()⟩
    "10.0.0.7" "2024-01-02 03:04:05" true none none
    ⟨Call.get (singleHostKey "10.0.0.7"), by simp [scan_ip_reconcile],
      ⟨"connection refused", rfl⟩⟩

/-- Modelled from the spec's words for comparison: the full mask width
of an address's family, an IPv6 textual address being one that contains
a colon. -/
def fullMaskWidth (ip_str : String) : Nat := if ip_str.toList.contains ':' then 128 else 32

/-- Modelled from the spec's words for comparison: the exact single-host
key, the address with its family's full mask width. -/
def specSingleHostKey (ip_str : String) : String :=
  ip_str ++ "/" ++ toString (fullMaskWidth ip_str)

/-- A record with no custom fields and no DNS name, returned by the
fallback filter in the C9 scenario. -/
def c9rec : IPRecord := { custom_fields := none, dns_name := none }

/-- Client behaviour for the C9 scenario: the exact-key get finds
nothing and the bare-address filter returns one record. -/
def c9env : NetboxEnv :=
  ⟨Except.ok none, Except.ok [c9rec], Except.ok (), Except.ok ()⟩

/-- C9 counterexample: for an IPv6 address the first lookup scan_ip
issues is keyed by the address with "/32" appended (line 135 hardcodes
the IPv4 width), not by the family's full mask width /128 as the claim
states. -/
theorem scan_C9_counterexample :
    (scan_ip_reconcile c9env "2001:db8::1" true none none
        "2024-01-02 03:04:05").2.head? = some (Call.get "2001:db8::1/32") ∧
    specSingleHostKey "2001:db8::1" = "2001:db8::1/128" ∧
    singleHostKey "2001:db8::1" ≠ specSingleHostKey "2001:db8::1" := by
  decide

/-- C9 (amended): reconciliation first looks up the record by the
address with "/32" appended regardless of family; only when that lookup
finds nothing does it issue the looser bare-address filter, and the
record it then reconciles against is the first element of the filter
result (or none). -/
theorem scan_C9_amended (env : NetboxEnv) (ip_str now : String) (pinged : Bool)
    (mac dns : Option String) (l : List IPRecord)
    (hget : env.getResult = Except.ok none)
    (hfil : env.filterResult = Except.ok l) :
    scan_ip_reconcile env ip_str pinged mac dns now =
      ((reconcileObj env l.head? ip_str pinged mac dns now).1,
        Call.get (singleHostKey ip_str) :: Call.filter ip_str ::
          (reconcileObj env l.head? ip_str pinged mac dns now).2) ∧
    (∀ env2 : NetboxEnv, ∀ obj : IPRecord, env2.getResult = Except.ok (some obj) →
      scan_ip_reconcile env2 ip_str pinged mac dns now =
        ((reconcileObj env2 (some obj) ip_str pinged mac dns now).1,
          Call.get (singleHostKey ip_str) ::
            (reconcileObj env2 (some obj) ip_str pinged mac dns now).2)) := by
  constructor
  · simp [scan_ip_reconcile, hget, hfil]
  · intro env2 obj h2
    simp [scan_ip_reconcile, h2]

/-- Closed instance of scan_C9_amended. -/
theorem scan_C9_witness :
    scan_ip_reconcile c9env "10.0.0.5" false none none "2024-01-02 03:04:05" =
      ((reconcileObj c9env [c9rec].head? "10.0.0.5" false none none
          "2024-01-02 03:04:05").1,
        Call.get (singleHostKey "10.0.0.5") :: Call.filter "10.0.0.5" ::
          (reconcileObj c9env [c9rec].head? "10.0.0.5" false none none
            "2024-01-02 03:04:05").2) ∧
    (∀ env2 : NetboxEnv, ∀ obj : IPRecord, env2.getResult = Except.ok (some obj) →
      scan_ip_reconcile env2 "10.0.0.5" false none none "2024-01-02 03:04:05" =
        ((reconcileObj env2 (some obj) "10.0.0.5" false none none
            "2024-01-02 03:04:05").1,
          Call.get (singleHostKey "10.0.0.5") ::
            (reconcileObj env2 (some obj) "10.0.0.5" false none none
              "2024-01-02 03:04:05").2)) :=
  scan_C9_amended c9env "10.0.0.5" "2024-01-02 03:04:05" false none none [c9rec] rfl rfl

/-- Every sample of the initial submission phase is at most the worker
bound. -/
theorem mem_submitPhase {k c : Nat} (h : c ∈ submitPhase k) : c ≤ k := by
  simp only [submitPhase, List.mem_map, List.mem_range] at h
  rcases h with ⟨i, hi, rfl⟩
  omega

/-- Every sample of the refill phase is either k - 1 (just after a
completion) or k (just after the replacement submission). -/
theorem mem_refillPhase {k c : Nat} : ∀ {r : Nat}, c ∈ refillPhase k r → c = k - 1 ∨ c = k := by
  intro r
  induction r with
  | zero => intro h; simp [refillPhase] at h
  | succ r ih =>
      intro h
      simp only [refillPhase, List.mem_cons] at h
      rcases h with rfl | rfl | h
      · exact Or.inl rfl
      · exact Or.inr rfl
      · exact ih h

/-- Every sample of the drain phase is below the worker bound. -/
theorem mem_drainPhase {k c : Nat} (h : c ∈ drainPhase k) : c < k := by
  simp only [drainPhase, List.mem_reverse, List.mem_range] at h
  exact h

/-- C4: over a scan of n targets with concurrency bound k < n, the
in-flight count sampled at every submit/complete event of the
orchestrating loop never exceeds k; during the refill phase (while the
target sequence is unexhausted) it never drops below k - 1, each
completion being followed immediately by a replacement submission that
restores it to k, so the window does not drain between batches; and the
trace decomposes into a full initial batch of k, the refill phase for
the n - k remaining targets, and one final drain. -/
theorem scan_C4 (k n : Nat) (hk : 0 < k) (hkn : k < n) :
    (∀ c ∈ window_trace k n, c ≤ k) ∧
    (∀ c ∈ refillPhase k (n - k), k - 1 ≤ c) ∧
    window_trace k n = submitPhase k ++ refillPhase k (n - k) ++ drainPhase k := by
  have hmin : min k n = k := Nat.min_eq_left (Nat.le_of_lt hkn)
  refine ⟨?_, ?_, ?_⟩
  · intro c hc
    simp only [window_trace, hmin] at hc
    rcases List.mem_append.mp hc with h | h
    · rcases List.mem_append.mp h with h1 | h1
      · exact mem_submitPhase h1
      · rcases mem_refillPhase h1 with rfl | rfl <;> omega
    · exact Nat.le_of_lt (mem_drainPhase h)
  · intro c hc
    rcases mem_refillPhase hc with rfl | rfl <;> omega
  · simp only [window_trace, hmin]

/-- Closed instance of scan_C4 at k = 2, n = 5. -/
theorem scan_C4_witness :
    window_trace 2 5 = submitPhase 2 ++ refillPhase 2 3 ++ drainPhase 2 :=
  (scan_C4 2 5 (by decide) (by decide)).2.2

/-- Masking off the remainder leaves a multiple of the modulus. -/
theorem sub_mod_self_mod (a n : Nat) : (a - a % n) % n = 0 := by
  have h1 := Nat.div_add_mod a n
  have h2 : a - a % n = n * (a / n) := by omega
  rw [h2]
  exact Nat.mul_mod_right n (a / n)

/-- Every network base the non-strict parser accepts has its host bits
already masked off. -/
theorem ip_network_v4_base_masked (s : String) (b p : Nat)
    (h : ip_network_v4 s false = Except.ok (b, p)) : b % 2 ^ (32 - p) = 0 := by
  unfold ip_network_v4 at h
  split at h
  · split at h
    · cases h
      omega
    · cases h
  · split at h
    · simp only [Bool.false_and, Bool.false_eq_true, if_false] at h
      cases h
      exact sub_mod_self_mod _ _
    · cases h
  · cases h

/-- C6 counterexample: the CIDR string "10.0.0.5/30" has host bits set
under its mask (strict parsing rejects it), yet range scanning does not
fail: line 189 passes strict=False, so the base is silently masked to
10.0.0.4/30 and the two usable hosts 10.0.0.5 and 10.0.0.6 are probed.
A truly malformed string ("10.0.0.300/24") is rejected with nothing
probed. -/
theorem scan_C6_counterexample :
    ip_network_v4 "10.0.0.5/30" true = Except.error "has host bits set" ∧
    ip_network_v4 "10.0.0.5/30" false = Except.ok (167772164, 30) ∧
    scan_prefix "10.0.0.5/30" = some ["10.0.0.5", "10.0.0.6"] ∧
    ip_network_v4 "10.0.0.300/24" false = Except.error "malformed address" ∧
    scan_prefix "10.0.0.300/24" = none := by
  refine ⟨?_, ?_, ?_, ?_, ?_⟩ <;> rfl

/-- C6 (amended): a malformed CIDR string makes range scanning fail fast
with no host probed (confirmed); but a CIDR string whose base address
has host bits set under the mask is not rejected: strict=False masks the
host bits off, and scanning proceeds over the hosts of the masked
network — every accepted base is already a multiple of the block size. -/
theorem scan_C6_amended (s : String) :
    (∀ e, ip_network_v4 s false = Except.error e → scan_prefix s = none) ∧
    (∀ b p, ip_network_v4 s false = Except.ok (b, p) →
      scan_prefix s = some ((hostsV4 b p).map ipv4ToString) ∧ b % 2 ^ (32 - p) = 0) := by
  constructor
  · intro e he
    simp [ scan_prefix, he]
  · intro b p hok
    constructor
    · simp [ scan_prefix, hok]
    · exact ip_network_v4_base_masked s b p hok

/-- C5 counterexample: the expansion of a full-width range contains its
own network address — hostsV4 of 10.0.0.5/32 is exactly [10.0.0.5] —
and the expansion of a /31 contains both the network address and the
broadcast address, contradicting the unconditional "excluding the
network address and (for IPv4) the broadcast address". -/
theorem scan_C5_counterexample :
    hostsV4 167772165 32 = [167772165] ∧
    167772165 ∈ hostsV4 167772165 32 ∧
    167772164 ∈ hostsV4 167772164 31 ∧
    167772164 + 2 ^ (32 - 31) - 1 ∈ hostsV4 167772164 31 := by
  decide

/-- C5 (amended): for IPv4 masks up to /30 the expansion is exactly the
addresses strictly between the network and broadcast addresses, in
ascending order, with the usable host count 2^(32-p) - 2; for IPv6 masks
up to /126 it is every address above the network address up to and
including the last, count 2^(128-p) - 1, ascending; the full-width and
point-to-point masks (/31, /32, /127, /128) instead yield all addresses
of the range, network and broadcast included.  The expansion is a pure
function of the range, so re-iterating it yields the same sequence. -/
theorem scan_C5_amended (b p b6 p6 : Nat) (hp : p ≤ 30) (hp6 : p6 ≤ 126) :
    (∀ m, m ∈ hostsV4 b p ↔ b < m ∧ m < b + 2 ^ (32 - p) - 1) ∧
    (hostsV4 b p).length = 2 ^ (32 - p) - 2 ∧
    List.Pairwise (fun x y => x < y) (hostsV4 b p) ∧
    (∀ m, m ∈ hostsV6 b6 p6 ↔ b6 < m ∧ m < b6 + 2 ^ (128 - p6)) ∧
    (hostsV6 b6 p6).length = 2 ^ (128 - p6) - 1 ∧
    List.Pairwise (fun x y => x < y) (hostsV6 b6 p6) ∧
    hostsV4 b 32 = [b] ∧ hostsV4 b 31 = [b, b + 1] ∧
    hostsV6 b6 128 = [b6] ∧ hostsV6 b6 127 = [b6, b6 + 1] := by
  have h32 : p ≠ 32 := by omega
  have h31 : p ≠ 31 := by omega
  have hs : 4 ≤ 2 ^ (32 - p) := by
    have : (2 : Nat) ^ 2 ≤ 2 ^ (32 - p) := Nat.pow_le_pow_right (by omega) (by omega)
    simpa using this
  have h128 : p6 ≠ 128 := by omega
  have h127 : p6 ≠ 127 := by omega
  have hs6 : 4 ≤ 2 ^ (128 - p6) := by
    have : (2 : Nat) ^ 2 ≤ 2 ^ (128 - p6) := Nat.pow_le_pow_right (by omega) (by omega)
    simpa using this
  refine ⟨?_, ?_, ?_, ?_, ?_, ?_, ?_, ?_, ?_, ?_⟩
  · intro m
    simp only [hostsV4, if_neg h32, if_neg h31, List.mem_range'_1]
    omega
  · simp [hostsV4, h32, h31]
  · simp only [hostsV4, if_neg h32, if_neg h31]
    exact List.pairwise_lt_range' _ _
  · intro m
    simp only [hostsV6, if_neg h128, if_neg h127, List.mem_range'_1]
    omega
  · simp [hostsV6, h128, h127]
  · simp only [hostsV6, if_neg h128, if_neg h127]
    exact List.pairwise_lt_range' _ _
  · simp [hostsV4]
  · simp [hostsV4]
  · simp [hostsV6]
  · simp [hostsV6]

/-- Closed instance of scan_C5_amended: the usable host count of a /30. -/
theorem scan_C5_witness :
    (hostsV4 8 30).length = 2 ^ (32 - 30) - 2 :=
  (scan_C5_amended 8 30 0 126 (by decide) (by decide)).2.1
